import Mathlib

/-!
# PeriodicBSplineTransform (elastix) — verification of the grid/mask spec

Shallow embedding of `elxPeriodicBSplineTransform.hxx`:

* `setOptimizerScales` models `SetOptimizerScales` (optimizer–scale / passive
  edge mask computation), including its validation of the passive edge width.
* `resolveFinalGridSpacing`, `computeGridSchedule`, `preComputeGridInformation`
  model the corresponding phases of `PreComputeGridInformation`.
* `writeToFile` / `readFromFile` model the grid-geometry part of
  `WriteToFile` / `ReadFromFile`.
* `beforeEachResolution` models `BeforeEachResolution`.

Machine floating-point values carried by the configuration and the grid
geometry are modelled as exact rationals (`ℚ`); unsigned/size integers as
`Nat` with explicit `Int` casts where the source performs signed arithmetic.
The elastix `Configuration` object (external to this file) is modelled as a
keyed list-of-entries lookup: `ReadParameter` returns the requested entry when
it exists and otherwise leaves the caller's default untouched.
-/

namespace ElxPeriodicBSpline

/-- Errors raised via `itkExceptionMacro` in the source.  The
`passiveEdgeTooLarge` payload carries what the source's error message reports:
the requested edge width, the offending dimension, and that dimension's grid
size. -/
inductive ElxError where
  | invalidGridSchedule : ElxError
  | passiveEdgeTooLarge (edgeWidth dim gridSize : Nat) : ElxError
  deriving DecidableEq, Repr

/-- `const ScalesValueType infScale = 10000.0;` -/
def infScale : ℚ := 10000

/-- ITK `ImageBase::ComputeIndex` restricted to an offset inside the buffered
region: decode a flat buffer offset into per-axis (relative) coordinates,
fastest-varying axis first. -/
def offsetToIndex : List Nat → Nat → List Nat
  | [], _ => []
  | s :: rest, k => (k % s) :: offsetToIndex rest (k / s)

/-- Absolute grid index of a control point: region index plus relative
coordinates. -/
def absIndex (gridindex : List Int) (rel : List Nat) : List Int :=
  List.zipWith (fun (g : Int) (a : Nat) => g + (a : Int)) gridindex rel

/-- ITK `ImageRegion::IsInside`: membership of an index in the region given by
`rIdx` (per-axis start) and `rSize` (per-axis extent). -/
def inRegion : List Int → List Int → List Nat → Bool
  | a :: ar, b :: br, n :: nr => (decide (b ≤ a) && decide (a < b + (n : Int))) && inRegion ar br nr
  | _, _, _ => true

/-- The validating loop of `SetOptimizerScales` over the axes:
`insetgridsize[i] = max(0, gridsize[i] - 2*edgeWidth)`, raising the
`PassiveEdgeWidth is too large` exception at the first axis where this is `0`.
`d` is the index of the first axis of the remaining list. -/
def computeInsetSize : List Nat → Nat → Nat → Except ElxError (List Nat)
  | [], _, _ => .ok []
  | s :: rest, w, d =>
    if (max 0 ((s : Int) - 2 * (w : Int))).toNat = 0 then
      .error (.passiveEdgeTooLarge w d s)
    else
      match computeInsetSize rest w (d + 1) with
      | .error e => .error e
      | .ok tl => .ok ((max 0 ((s : Int) - 2 * (w : Int))).toNat :: tl)

/-- `insetgridindex[i] = gridindex[i] + edgeWidth`. -/
def insetIndex (gridindex : List Int) (w : Nat) : List Int :=
  gridindex.map (· + (w : Int))

/-- `SetOptimizerScales(edgeWidth)`: builds the scales vector that the source
sets into the optimizer.  `numberOfParameters = (∏ size) * SpaceDimension`,
`offset = numberOfParameters / SpaceDimension`.  The scales start as all ones;
if `edgeWidth = 0` they are installed as-is.  Otherwise the inset (active)
region is computed (with validation), and the exclusion iterator visits every
grid offset whose absolute index is not inside the inset region, setting
`newScales[baseOffset + i*offset] = infScale` for every spatial dimension `i`.
The iterator's visit set is rendered as the raster-order flat offsets of the
grid region filtered by non-membership in the inset region. -/
def setOptimizerScales (size : List Nat) (gridindex : List Int) (edgeWidth : Nat) :
    Except ElxError (List ℚ) :=
  let numberOfParameters := size.prod * size.length
  let offset := numberOfParameters / size.length
  let newScales := List.replicate numberOfParameters (1 : ℚ)
  if edgeWidth = 0 then .ok newScales
  else
    match computeInsetSize size edgeWidth 0 with
    | .error e => .error e
    | .ok insetsize =>
      let iIdx := insetIndex gridindex edgeWidth
      let excluded := (List.range size.prod).filter
        (fun k => ! inRegion (absIndex gridindex (offsetToIndex size k)) iIdx insetsize)
      .ok (excluded.foldl
        (fun sc b =>
          ((List.range size.length).map (fun i => b + i * offset)).foldl
            (fun s2 p => s2.set p infScale) sc)
        newScales)

/-- Brute-force membership test for the active (inset) band, in relative grid
coordinates: a control point with relative multi-index `rel` is inside the
inset region iff `w ≤ rel[d]` and `rel[d] + w < size[d]` on every axis.  This
is the "point is inset?" oracle that the exclusion-iterator result is checked
against. -/
def insideRel : List Nat → Nat → List Nat → Bool
  | [], _, _ => true
  | _ :: _, _, [] => true
  | s :: srest, w, a :: arest =>
    (decide (w ≤ a) && decide (a + w < s)) && insideRel srest w arest

/-- The elastix `Configuration` object (external collaborator): a keyed,
indexed parameter lookup.  `entries key` is the ordered list of values behind
`key`; `CountNumberOfParameterEntries key` is its length. -/
structure Configuration where
  entries : String → List ℚ

/-- `Configuration::ReadParameter(value, key, idx, ...)`: returns entry `idx`
of `key` if present, otherwise leaves `value` (the caller's default)
untouched. -/
def readParameter (cfg : Configuration) (key : String) (idx : Nat) (dflt : ℚ) : ℚ :=
  (cfg.entries key).getD idx dflt

/-- The spacing-resolution phase of `PreComputeGridInformation`
(method 1 / method 2): `method2` holds iff the configuration has at least one
`FinalGridSpacingInPhysicalUnits` entry.  Method 2 reads the physical-units
spacings (declared default 8.0, never used per the source comment); method 1
reads `FinalGridSpacingInVoxels` (default 16.0) and multiplies per axis by the
fixed image's spacing. -/
def resolveFinalGridSpacing (cfg : Configuration) (imageSpacing : List ℚ) (D : Nat) :
    List ℚ :=
  if (cfg.entries "FinalGridSpacingInPhysicalUnits").length ≠ 0 then
    (List.range D).map (fun dim =>
      readParameter cfg "FinalGridSpacingInPhysicalUnits" dim 8)
  else
    let finalGridSpacingInVoxels := (List.range D).map (fun dim =>
      readParameter cfg "FinalGridSpacingInVoxels" dim 16)
    (List.range D).map (fun dim =>
      finalGridSpacingInVoxels.getD dim 16 * imageSpacing.getD dim 0)

/-- The `GridSpacingSchedule` phase of `PreComputeGridInformation`.
`defaultSchedule` is the schedule fetched from the grid schedule computer
after `SetDefaultSchedule`; a user-given list overrules it.  A count of `0`
keeps the default; a count of `nrOfResolutions` reads one entry per level for
all axes; a count of `nrOfResolutions * D` reads one entry per axis per level;
any other count raises the `Invalid GridSpacingSchedule` exception. -/
def computeGridSchedule (cfg : Configuration) (nrOfResolutions D : Nat)
    (defaultSchedule : List (List ℚ)) : Except ElxError (List (List ℚ)) :=
  let count := (cfg.entries "GridSpacingSchedule").length
  if count = 0 then .ok defaultSchedule
  else if count = nrOfResolutions then
    .ok ((List.range nrOfResolutions).map (fun res =>
      (List.range D).map (fun dim =>
        readParameter cfg "GridSpacingSchedule" res
          ((defaultSchedule.getD res []).getD dim 0))))
  else if count = nrOfResolutions * D then
    .ok ((List.range nrOfResolutions).map (fun res =>
      (List.range D).map (fun dim =>
        readParameter cfg "GridSpacingSchedule" (res * D + dim)
          ((defaultSchedule.getD res []).getD dim 0))))
  else .error .invalidGridSchedule

/-- The warning the source prints to `xl::xout["warning"]` after schedule
validation, before handing the schedule to the grid schedule computer. -/
def periodicAdjustWarning : String :=
  "WARNING: The provided grid spacing may be adapted to fit the periodic behavior of the PeriodicBSplineTransform."

/-- `PreComputeGridInformation`, from reading the spacing specification to
handing the schedule to the grid schedule computer: returns the resolved final
grid spacing in physical units, the validated schedule, and the list of
warning messages emitted on the way. -/
def preComputeGridInformation (cfg : Configuration) (imageSpacing : List ℚ)
    (nrOfResolutions D : Nat) (defaultSchedule : List (List ℚ)) :
    Except ElxError (List ℚ × List (List ℚ) × List String) :=
  let finalGridSpacingInPhysicalUnits := resolveFinalGridSpacing cfg imageSpacing D
  match computeGridSchedule cfg nrOfResolutions D defaultSchedule with
  | .error e => .error e
  | .ok gridSchedule =>
    .ok (finalGridSpacingInPhysicalUnits, gridSchedule, [periodicAdjustWarning])

/-- Modelled from the spec: the grid schedule computer (external to this
file, §4.1) adjusts a requested spacing when it does not divide the periodic
domain extent into a whole number of control-point intervals.  An adjustment
is needed exactly when no natural number of periods fits the extent
exactly. -/
def spacingNeedsAdjustment (domainExtent spacing : ℚ) : Prop :=
  ¬ ∃ n : ℕ, (n : ℚ) * spacing = domainExtent

/-- One level's grid geometry as persisted by `WriteToFile`.  The direction
matrix is stored as rows (`direction.get j` is row `j`, entry `(j, i)` is row
`j`, column `i`). -/
structure GridGeometry where
  size : List Nat
  index : List Int
  spacing : List ℚ
  origin : List ℚ
  direction : List (List ℚ)
  deriving DecidableEq, Repr

/-- The five grid lines of the transform-parameter file, as value lists keyed
by their tags. -/
structure TransformParamFile where
  gridSize : List Nat
  gridIndex : List Int
  gridSpacing : List ℚ
  gridOrigin : List ℚ
  gridDirection : List ℚ
  deriving DecidableEq, Repr

/-- `WriteToFile`: emits `GridSize`, `GridIndex`, `GridSpacing`, `GridOrigin`
with `SpaceDimension` values each, and `GridDirection` as the matrix entries
`direction(j, i)` with `i` (column) as the outer loop — the column-major
flattening, entry `(j, i)` at flat position `i * D + j`. -/
def writeToFile (g : GridGeometry) (D : Nat) : TransformParamFile where
  gridSize := (List.range D).map (fun i => g.size.getD i 0)
  gridIndex := (List.range D).map (fun i => g.index.getD i 0)
  gridSpacing := (List.range D).map (fun i => g.spacing.getD i 0)
  gridOrigin := (List.range D).map (fun i => g.origin.getD i 0)
  gridDirection := (List.range D).flatMap
    (fun i => (List.range D).map (fun j => (g.direction.getD j []).getD i 0))

/-- `ReadFromFile`: reads the five grid keys back, with the source's defaults
for absent entries (size 1, index 0, spacing 1.0, origin 0.0, direction
identity); `griddirection(j, i)` is read from `GridDirection` entry
`i * SpaceDimension + j`. -/
def readFromFile (f : TransformParamFile) (D : Nat) : GridGeometry where
  size := (List.range D).map (fun i => f.gridSize.getD i 1)
  index := (List.range D).map (fun i => f.gridIndex.getD i 0)
  spacing := (List.range D).map (fun i => f.gridSpacing.getD i 1)
  origin := (List.range D).map (fun i => f.gridOrigin.getD i 0)
  direction := (List.range D).map (fun j =>
    (List.range D).map (fun i =>
      f.gridDirection.getD (i * D + j) (if i = j then 1 else 0)))

/-- The grid action `BeforeEachResolution` performs before setting the
optimizer scales: `InitializeTransform` at level 0, `IncreaseScale`
otherwise. -/
inductive GridAction where
  | initializeTransform : GridAction
  | increaseScale : GridAction
  deriving DecidableEq, Repr

/-- `BeforeEachResolution`: installs / upsamples the grid depending on the
level, then reads `PassiveEdgeWidth` for this level (the local variable is
initialized to `0`, so an absent entry leaves `0`) and calls
`SetOptimizerScales` with it.  `widthCfg level` is the configuration's
`PassiveEdgeWidth` entry for `level`, if any. -/
def beforeEachResolution (widthCfg : Nat → Option Nat) (size : List Nat)
    (gridindex : List Int) (level : Nat) : GridAction × Except ElxError (List ℚ) :=
  ((if level = 0 then .initializeTransform else .increaseScale),
    setOptimizerScales size gridindex ((widthCfg level).getD 0))

/-- Configuration with three `GridSpacingSchedule` entries (and three entries
behind every other key). -/
def scheduleMismatchConfig : Configuration := ⟨fun _ => [1, 2, 3]⟩

/-- Configuration with no entries behind any key. -/
def emptyConfig : Configuration := ⟨fun _ => []⟩

/-- Configuration with one `FinalGridSpacingInPhysicalUnits` entry. -/
def physicalUnitsConfig : Configuration :=
  ⟨fun k => if k = "FinalGridSpacingInPhysicalUnits" then [10] else [5]⟩

/-- Configuration with two `FinalGridSpacingInVoxels` entries, value 16. -/
def voxelUnitsConfig : Configuration :=
  ⟨fun k => if k = "FinalGridSpacingInVoxels" then [16, 16] else []⟩

/-- A concrete well-formed 2-D grid geometry. -/
def sampleGrid : GridGeometry where
  size := [3, 4]
  index := [0, -1]
  spacing := [1/2, 2]
  origin := [0, 5]
  direction := [[1, 0], [0, 1]]

/-! ## List helper lemmas -/

lemma getD_set (l : List ℚ) (n q : Nat) (v : ℚ) :
    (l.set n v).getD q 0 = if q = n ∧ n < l.length then v else l.getD q 0 := by
  simp only [List.getD_eq_getElem?_getD, List.getElem?_set]
  by_cases h1 : n = q
  · subst h1
    by_cases h2 : n < l.length
    · simp [h2]
    · simp [h2, List.getElem?_eq_none (by omega : l.length ≤ n)]
  · have hne : ¬ (q = n ∧ n < l.length) := fun h => h1 h.1.symm
    simp [h1, hne]

lemma foldl_set_length (ps : List Nat) (v : ℚ) (sc : List ℚ) :
    (ps.foldl (fun s p => s.set p v) sc).length = sc.length := by
  induction ps generalizing sc with
  | nil => rfl
  | cons p rest ih => rw [List.foldl_cons, ih, List.length_set]

lemma foldl_set_getD (ps : List Nat) (v : ℚ) (sc : List ℚ) (q : Nat) :
    (ps.foldl (fun s p => s.set p v) sc).getD q 0 =
      if q ∈ ps ∧ q < sc.length then v else sc.getD q 0 := by
  induction ps generalizing sc with
  | nil => simp
  | cons p rest ih =>
    rw [List.foldl_cons, ih, List.length_set, getD_set]
    by_cases hpq : q = p
    · subst hpq
      by_cases hq : q < sc.length <;> by_cases hm : q ∈ rest <;> simp [hq, hm]
    · by_cases hq : q < sc.length <;> by_cases hm : q ∈ rest <;> simp [hpq, hq, hm]

lemma foldl_nested_set_length (E : List Nat) (f : Nat → List Nat) (v : ℚ) (sc : List ℚ) :
    (E.foldl (fun s b => (f b).foldl (fun s2 p => s2.set p v) s) sc).length = sc.length := by
  induction E generalizing sc with
  | nil => rfl
  | cons b rest ih => rw [List.foldl_cons, ih, foldl_set_length]

lemma foldl_nested_set_getD (E : List Nat) (f : Nat → List Nat) (v : ℚ) (sc : List ℚ)
    (q : Nat) :
    (E.foldl (fun s b => (f b).foldl (fun s2 p => s2.set p v) s) sc).getD q 0 =
      if (∃ b ∈ E, q ∈ f b) ∧ q < sc.length then v else sc.getD q 0 := by
  induction E generalizing sc with
  | nil => simp
  | cons b rest ih =>
    rw [List.foldl_cons, ih, foldl_set_length, foldl_set_getD]
    by_cases hb : q ∈ f b
    · by_cases hq : q < sc.length <;> simp [hb, hq]
    · by_cases hr : ∃ x ∈ rest, q ∈ f x
      · by_cases hq : q < sc.length <;> simp [hb, hr, hq]
      · by_cases hq : q < sc.length <;> simp [hb, hr, hq]

lemma countP_window (n a b : Nat) :
    (List.range n).countP (fun j => decide (a ≤ j) && decide (j < b)) = min b n - a := by
  induction n with
  | zero => simp
  | succ n ih =>
    rw [List.range_succ, List.countP_append, ih]
    by_cases h1 : a ≤ n <;> by_cases h2 : n < b <;>
      simp [List.countP_cons, h1, h2] <;> omega

lemma countP_range_mul (s P : Nat) (hs : 0 < s) (q r : Nat → Bool) :
    (List.range (s * P)).countP (fun k => q (k % s) && r (k / s)) =
      (List.range s).countP q * (List.range P).countP r := by
  induction P with
  | zero => simp
  | succ P ih =>
    have hsp : s * (P + 1) = s * P + s := by ring
    rw [hsp, List.range_add, List.countP_append, ih, List.countP_map]
    have hmap : (List.range s).countP
        ((fun k => q (k % s) && r (k / s)) ∘ (fun x => s * P + x)) =
        (List.range s).countP (fun j => q j && r P) := by
      apply List.countP_congr
      intro j hj
      rw [List.mem_range] at hj
      have h1 : (s * P + j) % s = j := by
        rw [add_comm, mul_comm, Nat.add_mul_mod_self_right, Nat.mod_eq_of_lt hj]
      have h2 : (s * P + j) / s = P := by
        rw [add_comm, mul_comm, Nat.add_mul_div_right j P hs, Nat.div_eq_of_lt hj]
        omega
      simp [Function.comp, h1, h2]
    rw [hmap, List.range_succ, List.countP_append, List.countP_cons, List.countP_nil]
    by_cases hrP : r P = true
    · have hq1 : (List.range s).countP (fun j => q j && r P) = (List.range s).countP q :=
        List.countP_congr (fun x _ => by simp [hrP])
      rw [hq1]
      simp [hrP]
      ring
    · rw [Bool.not_eq_true] at hrP
      have hq0 : (List.range s).countP (fun j => q j && r P) = 0 := by
        rw [List.countP_eq_zero]
        intro x _
        simp [hrP]
      rw [hq0]
      simp [hrP]

lemma getD_map_range {α : Type*} (N : Nat) (f : Nat → α) (p : Nat) (hp : p < N) (d : α) :
    ((List.range N).map f).getD p d = f p := by
  rw [List.getD_eq_getElem?_getD, List.getElem?_map, List.getElem?_range hp]
  rfl

lemma map_range_getD {α : Type*} (l : List α) (d : α) :
    (List.range l.length).map (fun i => l.getD i d) = l := by
  apply List.ext_getElem
  · simp
  · intro n h1 h2
    rw [List.getElem_map, List.getElem_range]
    rw [List.getD_eq_getElem l d h2]

lemma offsetToIndex_length (size : List Nat) (k : Nat) :
    (offsetToIndex size k).length = size.length := by
  induction size generalizing k with
  | nil => rfl
  | cons s rest ih => simp [offsetToIndex, ih]

lemma absIndex_getD (gridindex : List Int) (rel : List Nat) (d : Nat)
    (hg : d < gridindex.length) (hr : d < rel.length) :
    (absIndex gridindex rel).getD d 0 =
      gridindex.getD d 0 + ((rel.getD d 0 : Nat) : Int) := by
  have hlen : d < (absIndex gridindex rel).length := by
    rw [absIndex, List.length_zipWith]
    omega
  rw [List.getD_eq_getElem _ _ hlen, List.getD_eq_getElem _ _ hg, List.getD_eq_getElem _ _ hr]
  simp only [absIndex]
  rw [List.getElem_zipWith]

lemma mem_written_positions_iff (D P q : Nat) (E : List Nat) (hE : ∀ b ∈ E, b < P)
    (hP : 0 < P) (hq : q < P * D) :
    (∃ b ∈ E, q ∈ (List.range D).map (fun i => b + i * P)) ↔ q % P ∈ E := by
  constructor
  · rintro ⟨b, hbE, hmem⟩
    rw [List.mem_map] at hmem
    obtain ⟨i, _, rfl⟩ := hmem
    rwa [Nat.add_mul_mod_self_right, Nat.mod_eq_of_lt (hE b hbE)]
  · intro hmem
    refine ⟨q % P, hmem, ?_⟩
    rw [List.mem_map]
    refine ⟨q / P, ?_, Nat.mod_add_div' q P⟩
    rw [List.mem_range]
    exact (Nat.div_lt_iff_lt_mul hP).mpr (by rwa [mul_comm] at hq)

lemma computeInsetSize_ok (size : List Nat) (w : Nat) (hs : ∀ s ∈ size, 2 * w < s) :
    ∀ d, computeInsetSize size w d = .ok (size.map (fun s => s - 2 * w)) := by
  induction size with
  | nil => intro d; rfl
  | cons s rest ih =>
    intro d
    have hsd : 2 * w < s := hs s (by simp)
    have hrest : ∀ x ∈ rest, 2 * w < x := fun x hx => hs x (by simp [hx])
    have h1 : (max 0 ((s : Int) - 2 * (w : Int))).toNat = s - 2 * w := by omega
    simp only [computeInsetSize, h1]
    rw [if_neg (by omega : ¬ (s - 2 * w = 0)), ih hrest (d + 1)]
    simp

lemma computeInsetSize_error (size : List Nat) (w : Nat)
    (hbad : ∃ s ∈ size, s ≤ 2 * w) :
    ∀ d, ∃ i, i < size.length ∧ size.getD i 0 ≤ 2 * w ∧
      computeInsetSize size w d = .error (.passiveEdgeTooLarge w (d + i) (size.getD i 0)) := by
  induction size with
  | nil => obtain ⟨s, hs, _⟩ := hbad; cases hs
  | cons s rest ih =>
    intro d
    by_cases hh : s ≤ 2 * w
    · refine ⟨0, by simp, by simpa using hh, ?_⟩
      have h0 : (max 0 ((s : Int) - 2 * (w : Int))).toNat = 0 := by omega
      simp [computeInsetSize, h0]
    · have hrest : ∃ x ∈ rest, x ≤ 2 * w := by
        obtain ⟨x, hx, hxle⟩ := hbad
        rcases List.mem_cons.mp hx with rfl | hx2
        · omega
        · exact ⟨x, hx2, hxle⟩
      obtain ⟨i, hi, hle, heq⟩ := ih hrest (d + 1)
      refine ⟨i + 1, by simpa using hi, by simpa using hle, ?_⟩
      have h1 : ¬ ((max 0 ((s : Int) - 2 * (w : Int))).toNat = 0) := by omega
      simp only [computeInsetSize, h1, if_false, heq, List.getD_cons_succ]
      have harith : d + 1 + i = d + (i + 1) := by omega
      rw [harith]

lemma inRegion_absIndex (size : List Nat) (gridindex : List Int) (rel : List Nat) (w : Nat)
    (hg : gridindex.length = size.length) (hr : rel.length = size.length)
    (hs : ∀ s ∈ size, 2 * w < s) :
    inRegion (absIndex gridindex rel) (insetIndex gridindex w)
        (size.map (fun s => s - 2 * w)) = insideRel size w rel := by
  induction size generalizing gridindex rel with
  | nil =>
    have hg0 : gridindex = [] := by simpa [List.length_eq_zero] using hg
    have hr0 : rel = [] := by simpa [List.length_eq_zero] using hr
    subst hg0; subst hr0
    rfl
  | cons s srest ih =>
    cases gridindex with
    | nil => simp at hg
    | cons g grest =>
      cases rel with
      | nil => simp at hr
      | cons a arest =>
        have hsd : 2 * w < s := hs s (by simp)
        simp only [absIndex, List.zipWith_cons_cons, insetIndex, List.map_cons, inRegion,
          insideRel]
        rw [show List.zipWith (fun (g : Int) (a : Nat) => g + (a : Int)) grest arest =
          absIndex grest arest from rfl]
        rw [show grest.map (· + (w : Int)) = insetIndex grest w from rfl]
        rw [ih grest arest (by simpa using hg) (by simpa using hr)
          (fun x hx => hs x (by simp [hx]))]
        congr 2
        · rw [decide_eq_decide]
          omega
        · rw [decide_eq_decide]
          omega

lemma insideRel_iff (size rel : List Nat) (w : Nat) (hr : rel.length = size.length) :
    insideRel size w rel = true ↔
      ∀ d, d < size.length → w ≤ rel.getD d 0 ∧ rel.getD d 0 + w < size.getD d 0 := by
  induction size generalizing rel with
  | nil => simp [insideRel]
  | cons s srest ih =>
    cases rel with
    | nil => simp at hr
    | cons a arest =>
      simp only [insideRel, Bool.and_eq_true, decide_eq_true_eq]
      rw [ih arest (by simpa using hr)]
      constructor
      · rintro ⟨⟨h1, h2⟩, h3⟩ d hd
        cases d with
        | zero => simpa using ⟨h1, h2⟩
        | succ d => simpa using h3 d (by simpa using hd)
      · intro h
        refine ⟨⟨?_, ?_⟩, ?_⟩
        · simpa using (h 0 (by simp)).1
        · simpa using (h 0 (by simp)).2
        · intro d hd
          simpa using h (d + 1) (by simpa using hd)

lemma insideRel_false_iff_outside (size : List Nat) (gridindex : List Int) (rel : List Nat)
    (w : Nat) (hg : gridindex.length = size.length) (hr : rel.length = size.length) :
    insideRel size w rel = false ↔
      ∃ d, d < size.length ∧
        ((absIndex gridindex rel).getD d 0 < gridindex.getD d 0 + (w : Int) ∨
          gridindex.getD d 0 + ((size.getD d 0 : Nat) : Int) - (w : Int) ≤
            (absIndex gridindex rel).getD d 0) := by
  constructor
  · intro hfalse
    by_contra hno
    push_neg at hno
    rw [Bool.eq_false_iff] at hfalse
    apply hfalse
    rw [insideRel_iff size rel w hr]
    intro d hd
    have hcond := hno d hd
    rw [absIndex_getD gridindex rel d (by omega) (by omega)] at hcond
    omega
  · rintro ⟨d, hd, hcond⟩
    rw [Bool.eq_false_iff]
    intro htrue
    rw [insideRel_iff size rel w hr] at htrue
    have hin := htrue d hd
    rw [absIndex_getD gridindex rel d (by omega) (by omega)] at hcond
    omega

lemma countP_insideRel (size : List Nat) (w : Nat) (hs : ∀ s ∈ size, 2 * w < s) :
    (List.range size.prod).countP (fun k => insideRel size w (offsetToIndex size k)) =
      (size.map (fun s => s - 2 * w)).prod := by
  induction size with
  | nil => simp [insideRel, offsetToIndex]
  | cons s rest ih =>
    have hsd : 2 * w < s := hs s (by simp)
    have hs0 : 0 < s := by omega
    have hshape : (fun k => insideRel (s :: rest) w (offsetToIndex (s :: rest) k)) =
        (fun k => ((fun j => decide (w ≤ j) && decide (j + w < s)) (k % s)) &&
          ((fun m => insideRel rest w (offsetToIndex rest m)) (k / s))) := by
      funext k
      simp [offsetToIndex, insideRel]
    have hmul := countP_range_mul s rest.prod hs0
      (fun j => decide (w ≤ j) && decide (j + w < s))
      (fun m => insideRel rest w (offsetToIndex rest m))
    rw [List.prod_cons, hshape, hmul, ih (fun x hx => hs x (by simp [hx]))]
    have hwin : (List.range s).countP (fun j => decide (w ≤ j) && decide (j + w < s)) =
        s - 2 * w := by
      have hcg : (List.range s).countP (fun j => decide (w ≤ j) && decide (j + w < s)) =
          (List.range s).countP (fun j => decide (w ≤ j) && decide (j < s - w)) :=
        List.countP_congr (fun x hx => by
          simp only [Bool.and_eq_true, decide_eq_true_eq]
          omega)
      rw [hcg, countP_window]
      omega
    rw [hwin]
    simp [List.map_cons, List.prod_cons]

/-- Central characterization of `setOptimizerScales` on valid inputs: the
scales vector it installs equals, entry by entry, the brute-force oracle
`insideRel` applied to the decoded control-point multi-index of the entry's
base offset. -/
lemma setOptimizerScales_ok_eq_map (size : List Nat) (gridindex : List Int) (w : Nat)
    (hg : gridindex.length = size.length) (hw : 0 < w) (hs : ∀ s ∈ size, 2 * w < s) :
    setOptimizerScales size gridindex w = .ok ((List.range (size.prod * size.length)).map
      (fun q => if insideRel size w (offsetToIndex size (q % size.prod)) then (1 : ℚ)
        else infScale)) := by
  by_cases hnil : size = []
  · subst hnil
    have hg0 : gridindex = [] := by simpa [List.length_eq_zero] using hg
    subst hg0
    simp only [setOptimizerScales]
    rw [if_neg (by omega : ¬ w = 0)]
    rfl
  · have hD : 0 < size.length := List.length_pos.mpr hnil
    have hprod : 0 < size.prod := List.prod_pos (fun a ha => by have := hs a ha; omega)
    have hoffset : size.prod * size.length / size.length = size.prod :=
      Nat.mul_div_cancel _ hD
    simp only [setOptimizerScales]
    rw [if_neg (by omega : ¬ w = 0), computeInsetSize_ok size w hs 0]
    refine congrArg Except.ok ?_
    apply List.ext_getElem
    · rw [foldl_nested_set_length, List.length_replicate, List.length_map, List.length_range]
    · intro q h1 h2
      have hq : q < size.prod * size.length := by
        rw [List.length_map, List.length_range] at h2
        exact h2
      rw [List.getElem_map, List.getElem_range]
      rw [← List.getD_eq_getElem _ 0 h1]
      rw [foldl_nested_set_getD, List.length_replicate, hoffset]
      have hE : ∀ b ∈ (List.range size.prod).filter
          (fun k => ! inRegion (absIndex gridindex (offsetToIndex size k))
            (insetIndex gridindex w) (size.map (fun s => s - 2 * w))), b < size.prod := by
        intro b hb
        exact List.mem_range.mp (List.mem_filter.mp hb).1
      simp only [mem_written_positions_iff size.length size.prod q _ hE hprod hq]
      simp only [List.mem_filter, List.mem_range]
      rw [inRegion_absIndex size gridindex (offsetToIndex size (q % size.prod)) w hg
        (offsetToIndex_length size _) hs]
      have hrep : (List.replicate (size.prod * size.length) (1 : ℚ)).getD q 0 = 1 := by
        rw [List.getD_eq_getElem?_getD, List.getElem?_replicate, if_pos hq]
        rfl
      rw [hrep]
      have hmod : q % size.prod < size.prod := Nat.mod_lt _ hprod
      by_cases hins : insideRel size w (offsetToIndex size (q % size.prod))
      · simp [hins, hmod, hq]
      · simp [hins, hmod, hq]

/-! ## Claim theorems -/

/-- Claim C8: for every grid size, `SetOptimizerScales` with
`passiveEdgeWidth = 0` installs a scales vector of length
`numberOfParameters` in which every entry equals `1.0`, with no inset-region
computation (the result is the all-ones vector for any grid, even one that
would fail the inset validation). -/
theorem setOptimizerScales_zero_width (size : List Nat) (gridindex : List Int) :
    setOptimizerScales size gridindex 0 =
      .ok (List.replicate (size.prod * size.length) (1 : ℚ)) := rfl

/-- Claim C5: for `passiveEdgeWidth w > 0`, if some axis has
`size[d] - 2*w ≤ 0`, `SetOptimizerScales` raises the fatal configuration
error reporting the edge width, the offending axis, and that axis's grid
size, and installs no scales. -/
theorem setOptimizerScales_edge_too_large (size : List Nat) (gridindex : List Int) (w : Nat)
    (hw : 0 < w) (hbad : ∃ s ∈ size, s ≤ 2 * w) :
    ∃ d, d < size.length ∧ size.getD d 0 ≤ 2 * w ∧
      setOptimizerScales size gridindex w =
        .error (.passiveEdgeTooLarge w d (size.getD d 0)) := by
  obtain ⟨i, hi, hle, heq⟩ := computeInsetSize_error size w hbad 0
  rw [Nat.zero_add] at heq
  refine ⟨i, hi, hle, ?_⟩
  simp only [setOptimizerScales]
  rw [if_neg (by omega : ¬ w = 0), heq]

/-- Witness for C5: `passiveEdgeWidth = 6` on a grid of size 10 per axis is
fatal, since `10 - 12 < 0`. -/
theorem setOptimizerScales_edge_too_large_witness :
    (0 : Nat) < 6 ∧ (∃ s ∈ [10, 10], s ≤ 2 * 6) ∧
      ∃ d, d < ([10, 10] : List Nat).length ∧ ([10, 10] : List Nat).getD d 0 ≤ 2 * 6 ∧
        setOptimizerScales [10, 10] [0, 0] 6 =
          .error (.passiveEdgeTooLarge 6 d (([10, 10] : List Nat).getD d 0)) :=
  ⟨by norm_num, ⟨10, by decide⟩,
    setOptimizerScales_edge_too_large [10, 10] [0, 0] 6 (by norm_num) ⟨10, by decide⟩⟩

/-- Claim C9: the sentinel written into the scales for passive edge
coefficients is the finite rational constant `10000`, and on valid inputs
every entry of the installed vector is either `1` or that same sentinel. -/
theorem setOptimizerScales_sentinel_value (size : List Nat) (gridindex : List Int) (w : Nat)
    (hg : gridindex.length = size.length) (hw : 0 < w) (hs : ∀ s ∈ size, 2 * w < s) :
    infScale = 10000 ∧
    ∃ scales, setOptimizerScales size gridindex w = .ok scales ∧
      ∀ q, q < scales.length → scales.getD q 0 = 1 ∨ scales.getD q 0 = infScale := by
  refine ⟨rfl, ?_⟩
  rw [setOptimizerScales_ok_eq_map size gridindex w hg hw hs]
  refine ⟨_, rfl, ?_⟩
  intro q hq
  rw [List.length_map, List.length_range] at hq
  rw [getD_map_range _ _ _ hq]
  by_cases hins : insideRel size w (offsetToIndex size (q % size.prod)) <;> simp [hins]

/-- Witness for C9 on the grid `[4]` with edge width 1. -/
theorem setOptimizerScales_sentinel_value_witness :
    ([0] : List Int).length = ([4] : List Nat).length ∧ (0 : Nat) < 1 ∧
      (∀ s ∈ [4], 2 * 1 < s) ∧
      (infScale = 10000 ∧
        ∃ scales, setOptimizerScales [4] [0] 1 = .ok scales ∧
          ∀ q, q < scales.length → scales.getD q 0 = 1 ∨ scales.getD q 0 = infScale) :=
  ⟨rfl, by norm_num, by decide,
    setOptimizerScales_sentinel_value [4] [0] 1 rfl (by norm_num) (by decide)⟩

/-- Claim C1: for `w > 0` with `size[d] - 2*w > 0` on every axis,
`SetOptimizerScales` installs a vector of length `numberOfParameters` in
which an entry is the sentinel iff the absolute multi-index of its control
point (the entry's base offset `q % ∏size`, decoded and shifted by the grid
index) lies outside the inset region `[index[d]+w, index[d]+size[d]-w)` on at
least one axis — for every one of the `D` spatial-dimension blocks — all
other entries are `1.0`, and the number of sentinel entries is
`(∏ size[d] - ∏ (size[d]-2w)) * D`. -/
theorem setOptimizerScales_passive_band (size : List Nat) (gridindex : List Int) (w : Nat)
    (hg : gridindex.length = size.length) (hw : 0 < w) (hs : ∀ s ∈ size, 2 * w < s) :
    ∃ scales, setOptimizerScales size gridindex w = .ok scales ∧
      scales.length = size.prod * size.length ∧
      (∀ q, q < size.prod * size.length →
        (scales.getD q 0 = infScale ↔
          ∃ d, d < size.length ∧
            ((absIndex gridindex (offsetToIndex size (q % size.prod))).getD d 0 <
                gridindex.getD d 0 + (w : Int) ∨
              gridindex.getD d 0 + ((size.getD d 0 : Nat) : Int) - (w : Int) ≤
                (absIndex gridindex (offsetToIndex size (q % size.prod))).getD d 0)) ∧
        (scales.getD q 0 = infScale ∨ scales.getD q 0 = 1)) ∧
      scales.count infScale =
        (size.prod - (size.map (fun s => s - 2 * w)).prod) * size.length := by
  refine ⟨_, setOptimizerScales_ok_eq_map size gridindex w hg hw hs, ?_, ?_, ?_⟩
  · rw [List.length_map, List.length_range]
  · intro q hq
    rw [getD_map_range _ _ _ hq]
    have hrel := offsetToIndex_length size (q % size.prod)
    refine ⟨?_, ?_⟩
    · rw [← insideRel_false_iff_outside size gridindex _ w hg hrel]
      by_cases hins : insideRel size w (offsetToIndex size (q % size.prod))
      · rw [if_pos hins]
        constructor
        · intro h1
          exact absurd h1 (by norm_num [infScale])
        · intro h2
          rw [hins] at h2
          cases h2
      · rw [Bool.not_eq_true] at hins
        rw [if_neg (by simp [hins])]
        exact ⟨fun _ => hins, fun _ => rfl⟩
    · by_cases hins : insideRel size w (offsetToIndex size (q % size.prod)) <;> simp [hins]
  · rw [List.count_eq_countP, List.countP_map]
    have hstep1 : ((fun x => x == infScale) ∘ (fun q =>
        if insideRel size w (offsetToIndex size (q % size.prod)) then (1 : ℚ)
        else infScale)) =
        fun q => ! insideRel size w (offsetToIndex size (q % size.prod)) := by
      funext q
      by_cases h : insideRel size w (offsetToIndex size (q % size.prod))
      · simp only [Function.comp, h, if_true]
        decide
      · simp [Function.comp, h]
    rw [hstep1]
    by_cases hnil : size = []
    · subst hnil
      simp
    · have hD : 0 < size.length := List.length_pos.mpr hnil
      have hprod : 0 < size.prod := List.prod_pos (fun a ha => by have := hs a ha; omega)
      have hmul := countP_range_mul size.prod size.length hprod
        (fun j => ! insideRel size w (offsetToIndex size j)) (fun _ => true)
      rw [List.countP_true, List.length_range] at hmul
      have hcg : (List.range (size.prod * size.length)).countP
          (fun q => ! insideRel size w (offsetToIndex size (q % size.prod))) =
          (List.range (size.prod * size.length)).countP
          (fun k => (fun j => ! insideRel size w (offsetToIndex size j)) (k % size.prod) &&
            (fun _ => true) (k / size.prod)) :=
        List.countP_congr (fun x _ => by simp)
      rw [hcg, hmul]
      have hneg : (List.range size.prod).countP
          (fun j => ! insideRel size w (offsetToIndex size j)) =
          size.prod - (size.map (fun s => s - 2 * w)).prod := by
        have hsum := List.length_eq_countP_add_countP
          (fun j => insideRel size w (offsetToIndex size j)) (List.range size.prod)
        rw [List.length_range, countP_insideRel size w hs] at hsum
        have hcongr2 : (List.range size.prod).countP
            (fun a => decide ¬(insideRel size w (offsetToIndex size a) = true)) =
            (List.range size.prod).countP
            (fun j => ! insideRel size w (offsetToIndex size j)) :=
          List.countP_congr (fun x _ => by simp)
        omega
      rw [hneg]

/-- Claim C10: `BeforeEachResolution` installs the level-0 grid at level 0
and upsamples otherwise, and at every level (including 0) recomputes and sets
the optimizer scales from the `PassiveEdgeWidth` read for that level; when
the key is absent for the level, the width defaults to 0 and the scales are
the all-ones vector with no grid-size validation. -/
theorem beforeEachResolution_scales (widthCfg : Nat → Option Nat) (size : List Nat)
    (gridindex : List Int) (level : Nat) :
    ((level = 0 →
        (beforeEachResolution widthCfg size gridindex level).1 = .initializeTransform) ∧
      (level ≠ 0 →
        (beforeEachResolution widthCfg size gridindex level).1 = .increaseScale)) ∧
    (beforeEachResolution widthCfg size gridindex level).2 =
      setOptimizerScales size gridindex ((widthCfg level).getD 0) ∧
    (widthCfg level = none →
      (beforeEachResolution widthCfg size gridindex level).2 =
        .ok (List.replicate (size.prod * size.length) (1 : ℚ))) := by
  refine ⟨⟨?_, ?_⟩, rfl, ?_⟩
  · intro h
    simp [beforeEachResolution, h]
  · intro h
    simp [beforeEachResolution, h]
  · intro h
    show setOptimizerScales size gridindex ((widthCfg level).getD 0) = _
    rw [h]
    rfl

/-- Witness for C10 at level 0 with an absent `PassiveEdgeWidth` key. -/
theorem beforeEachResolution_scales_witness :
    (((0 : Nat) = 0 →
        (beforeEachResolution (fun _ => none) [3] [0] 0).1 = .initializeTransform) ∧
      ((0 : Nat) ≠ 0 →
        (beforeEachResolution (fun _ => none) [3] [0] 0).1 = .increaseScale)) ∧
    (beforeEachResolution (fun _ => none) [3] [0] 0).2 =
      setOptimizerScales [3] [0] (((fun _ => none : Nat → Option Nat) 0).getD 0) ∧
    ((fun _ => none : Nat → Option Nat) 0 = none →
      (beforeEachResolution (fun _ => none) [3] [0] 0).2 =
        .ok (List.replicate (([3] : List Nat).prod * ([3] : List Nat).length) (1 : ℚ))) :=
  beforeEachResolution_scales (fun _ => none) [3] [0] 0

/-- Claim C2: a `GridSpacingSchedule` entry count of zero keeps the default
schedule; a count equal to `numberOfResolutions` applies the single per-level
value isotropically to every axis of that level; any other nonzero count
which is also not `numberOfResolutions * SpaceDimension` raises the fatal
`Invalid GridSpacingSchedule` error, so no schedule is produced. -/
theorem computeGridSchedule_validation (cfg : Configuration) (nrOfResolutions D : Nat)
    (defaultSchedule : List (List ℚ)) :
    ((cfg.entries "GridSpacingSchedule").length = 0 →
      computeGridSchedule cfg nrOfResolutions D defaultSchedule = .ok defaultSchedule) ∧
    ((cfg.entries "GridSpacingSchedule").length ≠ 0 →
      (cfg.entries "GridSpacingSchedule").length = nrOfResolutions →
      ∃ sched, computeGridSchedule cfg nrOfResolutions D defaultSchedule = .ok sched ∧
        sched.length = nrOfResolutions ∧
        ∀ res, res < nrOfResolutions →
          sched.getD res [] =
            List.replicate D ((cfg.entries "GridSpacingSchedule").getD res 0)) ∧
    ((cfg.entries "GridSpacingSchedule").length ≠ 0 →
      (cfg.entries "GridSpacingSchedule").length ≠ nrOfResolutions →
      (cfg.entries "GridSpacingSchedule").length ≠ nrOfResolutions * D →
      computeGridSchedule cfg nrOfResolutions D defaultSchedule =
        .error .invalidGridSchedule) := by
  refine ⟨?_, ?_, ?_⟩
  · intro h0
    simp only [computeGridSchedule]
    rw [if_pos h0]
  · intro h0 heq
    simp only [computeGridSchedule]
    rw [if_neg (by omega), if_pos heq]
    refine ⟨_, rfl, ?_, ?_⟩
    · rw [List.length_map, List.length_range]
    · intro res hres
      rw [getD_map_range _ _ _ hres]
      have hval : ∀ dim : Nat, readParameter cfg "GridSpacingSchedule" res
          ((defaultSchedule.getD res []).getD dim 0) =
          (cfg.entries "GridSpacingSchedule").getD res 0 := by
        intro dim
        rw [readParameter,
          List.getD_eq_getElem _ _ (by omega : res < (cfg.entries "GridSpacingSchedule").length),
          List.getD_eq_getElem _ _ (by omega)]
      rw [List.map_congr_left (fun dim _ => hval dim)]
      rw [show (fun _ : Nat => (cfg.entries "GridSpacingSchedule").getD res 0) =
        Function.const Nat ((cfg.entries "GridSpacingSchedule").getD res 0) from rfl]
      rw [List.map_const, List.length_range]
  · intro h0 h1 h2
    simp only [computeGridSchedule]
    rw [if_neg (by omega), if_neg h1, if_neg h2]

/-- Witness for C2: three schedule entries with two resolutions in 2-D
(3 ∉ {0, 2, 4}) is a fatal configuration error. -/
theorem computeGridSchedule_validation_witness :
    (scheduleMismatchConfig.entries "GridSpacingSchedule").length ≠ 0 ∧
    (scheduleMismatchConfig.entries "GridSpacingSchedule").length ≠ 2 ∧
    (scheduleMismatchConfig.entries "GridSpacingSchedule").length ≠ 2 * 2 ∧
    computeGridSchedule scheduleMismatchConfig 2 2 [] = .error .invalidGridSchedule :=
  ⟨by decide, by decide, by decide,
    (computeGridSchedule_validation scheduleMismatchConfig 2 2 []).2.2
      (by decide) (by decide) (by decide)⟩

/-- Claim C3: the `FinalGridSpacingInVoxels` path is taken iff the entry
count for `FinalGridSpacingInPhysicalUnits` is zero; with at least one
physical-units entry, the physical-units values are used and the result is
independent of the voxel-units entries and the image spacing. -/
theorem resolveFinalGridSpacing_method_choice (cfg : Configuration) (imageSpacing : List ℚ)
    (D : Nat) :
    ((cfg.entries "FinalGridSpacingInPhysicalUnits").length = 0 →
      resolveFinalGridSpacing cfg imageSpacing D = (List.range D).map (fun dim =>
        (cfg.entries "FinalGridSpacingInVoxels").getD dim 16 * imageSpacing.getD dim 0)) ∧
    ((cfg.entries "FinalGridSpacingInPhysicalUnits").length ≠ 0 →
      resolveFinalGridSpacing cfg imageSpacing D = (List.range D).map (fun dim =>
        (cfg.entries "FinalGridSpacingInPhysicalUnits").getD dim 8) ∧
      ∀ cfg2 : Configuration, ∀ imageSpacing2 : List ℚ,
        cfg2.entries "FinalGridSpacingInPhysicalUnits" =
          cfg.entries "FinalGridSpacingInPhysicalUnits" →
        resolveFinalGridSpacing cfg2 imageSpacing2 D =
          resolveFinalGridSpacing cfg imageSpacing D) := by
  constructor
  · intro h0
    simp only [resolveFinalGridSpacing]
    rw [if_neg (by omega)]
    apply List.map_congr_left
    intro dim hdim
    rw [List.mem_range] at hdim
    rw [getD_map_range _ _ _ hdim]
    rfl
  · intro h0
    constructor
    · simp only [resolveFinalGridSpacing]
      rw [if_pos h0]
      rfl
    · intro cfg2 imageSpacing2 hsame
      simp only [resolveFinalGridSpacing, readParameter]
      rw [hsame, if_pos h0, if_pos h0]

/-- Witness for C3: with one physical-units entry, the physical path is taken
and voxel entries are ignored. -/
theorem resolveFinalGridSpacing_method_choice_witness :
    (physicalUnitsConfig.entries "FinalGridSpacingInPhysicalUnits").length ≠ 0 ∧
    (resolveFinalGridSpacing physicalUnitsConfig [7] 1 = (List.range 1).map (fun dim =>
      (physicalUnitsConfig.entries "FinalGridSpacingInPhysicalUnits").getD dim 8) ∧
    ∀ cfg2 : Configuration, ∀ imageSpacing2 : List ℚ,
      cfg2.entries "FinalGridSpacingInPhysicalUnits" =
        physicalUnitsConfig.entries "FinalGridSpacingInPhysicalUnits" →
      resolveFinalGridSpacing cfg2 imageSpacing2 1 =
        resolveFinalGridSpacing physicalUnitsConfig [7] 1) :=
  ⟨by decide,
    (resolveFinalGridSpacing_method_choice physicalUnitsConfig [7] 1).2 (by decide)⟩

/-- Claim C7: with no `FinalGridSpacingInPhysicalUnits` entries, the resolved
final grid spacing on every axis equals the voxel-units value (default 16.0
when the key is absent) times the fixed image's spacing on that axis. -/
theorem resolveFinalGridSpacing_voxels (cfg : Configuration) (imageSpacing : List ℚ) (D : Nat)
    (h : (cfg.entries "FinalGridSpacingInPhysicalUnits").length = 0) :
    ∀ d, d < D → (resolveFinalGridSpacing cfg imageSpacing D).getD d 0 =
      (cfg.entries "FinalGridSpacingInVoxels").getD d 16 * imageSpacing.getD d 0 := by
  intro d hd
  simp only [resolveFinalGridSpacing]
  rw [if_neg (by omega)]
  rw [getD_map_range _ _ _ hd, getD_map_range _ _ _ hd]
  rfl

/-- Witness for C7: `FinalGridSpacingInVoxels = 16` with image spacing
`(2,2)` resolves to physical spacing `(32,32)`. -/
theorem resolveFinalGridSpacing_voxels_witness :
    (voxelUnitsConfig.entries "FinalGridSpacingInPhysicalUnits").length = 0 ∧
    (resolveFinalGridSpacing voxelUnitsConfig [2, 2] 2).getD 0 0 = 32 ∧
    (resolveFinalGridSpacing voxelUnitsConfig [2, 2] 2).getD 1 0 = 32 := by
  refine ⟨by decide, ?_, ?_⟩
  · rw [resolveFinalGridSpacing_voxels voxelUnitsConfig [2, 2] 2 (by decide) 0 (by norm_num)]
    show (16 : ℚ) * 2 = 32
    norm_num
  · rw [resolveFinalGridSpacing_voxels voxelUnitsConfig [2, 2] 2 (by decide) 1 (by norm_num)]
    show (16 : ℚ) * 2 = 32
    norm_num

/-- Claim C4 counterexample: the spacing-adjustment warning is not emitted
"exactly when" the spacing needs adjusting — on a run whose resolved spacing
36 divides the periodic domain extent 360 into a whole number of periods (10)
and hence needs no adjustment, the warning is still emitted. -/
theorem preCompute_warns_without_adjustment :
    (¬ spacingNeedsAdjustment 360 36) ∧
    ∃ out, preComputeGridInformation emptyConfig [9/4] 3 1 [[4], [2], [1]] = .ok out ∧
      out.1 = [36] ∧ periodicAdjustWarning ∈ out.2.2 := by
  constructor
  · intro h
    exact h ⟨10, by norm_num⟩
  · refine ⟨_, rfl, ?_, ?_⟩
    · show resolveFinalGridSpacing emptyConfig [9/4] 1 = [36]
      simp [resolveFinalGridSpacing, readParameter, emptyConfig, show List.range 1 = [0] from rfl]
      norm_num
    · simp

/-- Claim C4 (amended): whenever `PreComputeGridInformation` succeeds (the
schedule validates), the spacing-adjustment warning is emitted — stating the
spacing "may be adapted" — regardless of whether any adjustment is needed;
it is non-fatal (the computation still returns its result). -/
theorem preComputeGridInformation_always_warns (cfg : Configuration) (imageSpacing : List ℚ)
    (nrOfResolutions D : Nat) (defaultSchedule : List (List ℚ))
    (out : List ℚ × List (List ℚ) × List String)
    (h : preComputeGridInformation cfg imageSpacing nrOfResolutions D defaultSchedule =
      .ok out) :
    out.2.2 = [periodicAdjustWarning] := by
  simp only [preComputeGridInformation] at h
  cases hcs : computeGridSchedule cfg nrOfResolutions D defaultSchedule with
  | error e =>
    rw [hcs] at h
    cases h
  | ok sched =>
    rw [hcs] at h
    simp only [Except.ok.injEq] at h
    rw [← h]

/-- Witness for the amended C4 on a concrete successful run. -/
theorem preComputeGridInformation_always_warns_witness :
    (([16], [[2]], [periodicAdjustWarning]) :
      List ℚ × List (List ℚ) × List String).2.2 = [periodicAdjustWarning] :=
  preComputeGridInformation_always_warns emptyConfig [1] 1 1 [[2]]
    ([16], [[2]], [periodicAdjustWarning]) (by
      simp [preComputeGridInformation, resolveFinalGridSpacing, computeGridSchedule,
        readParameter, emptyConfig, show List.range 1 = [0] from rfl])

lemma flatMap_range_map {α : Type*} (m n : Nat) (g : Nat → Nat → α) :
    (List.range m).flatMap (fun a => (List.range n).map (g a)) =
      (List.range (m * n)).map (fun p => g (p / n) (p % n)) := by
  induction m with
  | zero => simp
  | succ m ih =>
    rw [List.range_succ, List.flatMap_append, ih]
    have h1 : (m + 1) * n = m * n + n := by ring
    rw [h1, List.range_add, List.map_append]
    congr 1
    rw [List.flatMap_cons, List.flatMap_nil, List.append_nil, List.map_map]
    apply List.map_congr_left
    intro x hx
    rw [List.mem_range] at hx
    have hn : 0 < n := by omega
    have hdiv : (m * n + x) / n = m := by
      rw [add_comm, Nat.add_mul_div_right x m hn, Nat.div_eq_of_lt hx]
      omega
    have hmod : (m * n + x) % n = x := by
      rw [add_comm, Nat.add_mul_mod_self_right, Nat.mod_eq_of_lt hx]
    simp [Function.comp, hdiv, hmod]

lemma write_read_field {α : Type*} (l : List α) (d1 d2 : α) (D : Nat) (hl : l.length = D) :
    (List.range D).map
      (fun i => ((List.range D).map (fun j => l.getD j d1)).getD i d2) = l := by
  have h1 : ∀ i ∈ List.range D,
      ((List.range D).map (fun j => l.getD j d1)).getD i d2 = l.getD i d1 := by
    intro i hi
    rw [List.mem_range] at hi
    rw [getD_map_range _ _ _ hi]
  rw [List.map_congr_left h1]
  subst hl
  exact map_range_getD l d1

/-- Claim C6: writing a grid geometry with `WriteToFile` — `GridSize`,
`GridIndex`, `GridSpacing`, `GridOrigin` as `D` values each and
`GridDirection` as the column-major flattening of the `D×D` matrix — and
reading the same keys back with `ReadFromFile` reproduces the identical grid
geometry (values are modelled exactly, so "within declared precision" is
exact equality here). -/
theorem writeToFile_readFromFile_roundtrip (g : GridGeometry) (D : Nat)
    (hsz : g.size.length = D) (hix : g.index.length = D) (hsp : g.spacing.length = D)
    (hor : g.origin.length = D) (hdir : g.direction.length = D)
    (hrow : ∀ row ∈ g.direction, row.length = D) :
    readFromFile (writeToFile g D) D = g := by
  obtain ⟨size, index, spacing, origin, direction⟩ := g
  simp only at hsz hix hsp hor hdir hrow
  simp only [writeToFile, readFromFile, GridGeometry.mk.injEq]
  refine ⟨write_read_field size 0 1 D hsz, write_read_field index 0 0 D hix,
    write_read_field spacing 0 1 D hsp, write_read_field origin 0 0 D hor, ?_⟩
  rw [flatMap_range_map D D (fun a b => (direction.getD b []).getD a 0)]
  apply List.ext_getElem
  · rw [List.length_map, List.length_range, hdir]
  · intro j h1 h2
    rw [List.getElem_map, List.getElem_range]
    have hjD : j < D := by
      rw [List.length_map, List.length_range] at h1
      exact h1
    have hjlen : j < direction.length := by omega
    have hrowlen : (direction.getD j []).length = D := by
      rw [List.getD_eq_getElem _ _ hjlen]
      exact hrow _ (List.getElem_mem hjlen)
    have hentry : ∀ i ∈ List.range D,
        ((List.range (D * D)).map
          (fun p => (direction.getD (p % D) []).getD (p / D) 0)).getD (i * D + j)
          (if i = j then (1 : ℚ) else 0) = (direction.getD j []).getD i 0 := by
      intro i hi
      rw [List.mem_range] at hi
      have hp : i * D + j < D * D := by
        have h3 : i + 1 ≤ D := hi
        calc i * D + j < i * D + D := by omega
        _ = (i + 1) * D := by ring
        _ ≤ D * D := Nat.mul_le_mul_right D h3
      rw [getD_map_range _ _ _ hp]
      have hn : 0 < D := by omega
      have hmod : (i * D + j) % D = j := by
        rw [add_comm, Nat.add_mul_mod_self_right, Nat.mod_eq_of_lt hjD]
      have hdiv : (i * D + j) / D = i := by
        rw [add_comm, Nat.add_mul_div_right j i hn, Nat.div_eq_of_lt hjD]
        omega
      rw [hmod, hdiv]
    rw [List.map_congr_left hentry]
    have hroweq := map_range_getD (direction.getD j []) 0
    rw [hrowlen] at hroweq
    rw [hroweq]
    exact List.getD_eq_getElem direction [] hjlen

/-- Witness for C6 on a concrete 2-D grid geometry. -/
theorem writeToFile_readFromFile_roundtrip_witness :
    sampleGrid.size.length = 2 ∧ sampleGrid.index.length = 2 ∧
    sampleGrid.spacing.length = 2 ∧ sampleGrid.origin.length = 2 ∧
    sampleGrid.direction.length = 2 ∧ (∀ row ∈ sampleGrid.direction, row.length = 2) ∧
    readFromFile (writeToFile sampleGrid 2) 2 = sampleGrid :=
  ⟨rfl, rfl, rfl, rfl, rfl, by decide,
    writeToFile_readFromFile_roundtrip sampleGrid 2 rfl rfl rfl rfl rfl (by decide)⟩

/-- Witness for C1 on the grid `[4]` with index `[5]` and edge width 1. -/
theorem setOptimizerScales_passive_band_witness :
    ([5] : List Int).length = ([4] : List Nat).length ∧ (0 : Nat) < 1 ∧
    (∀ s ∈ [4], 2 * 1 < s) ∧
    (∃ scales, setOptimizerScales [4] [5] 1 = .ok scales ∧
      scales.length = ([4] : List Nat).prod * ([4] : List Nat).length ∧
      (∀ q, q < ([4] : List Nat).prod * ([4] : List Nat).length →
        (scales.getD q 0 = infScale ↔
          ∃ d, d < ([4] : List Nat).length ∧
            ((absIndex [5] (offsetToIndex [4] (q % ([4] : List Nat).prod))).getD d 0 <
                ([5] : List Int).getD d 0 + ((1 : Nat) : Int) ∨
              ([5] : List Int).getD d 0 + ((([4] : List Nat).getD d 0 : Nat) : Int) -
                  ((1 : Nat) : Int) ≤
                (absIndex [5] (offsetToIndex [4] (q % ([4] : List Nat).prod))).getD d 0)) ∧
        (scales.getD q 0 = infScale ∨ scales.getD q 0 = 1)) ∧
      scales.count infScale =
        (([4] : List Nat).prod - (([4] : List Nat).map (fun s => s - 2 * 1)).prod) *
          ([4] : List Nat).length) :=
  ⟨rfl, by norm_num, by decide,
    setOptimizerScales_passive_band [4] [5] 1 rfl (by norm_num) (by decide)⟩

end ElxPeriodicBSpline
